/-
Verification of the pipeline-automation repository (a Next.js management
console for notebook-driven data pipelines).

The development shallowly embeds the state-bearing TypeScript logic:
  - the execution monitor's fetch/filter/sort/paginate pipeline
    (`lib/execution-client.ts` / `lib/mock-data.ts`, `MonitorExecutions`),
  - the download-availability rule (`isDownloadAvailable`, `downloadMockFile`),
  - the pipeline catalog store (`context/pipeline-store.tsx`),
  - the execution-form validation and coercion (`execution-form.tsx`),
  - the pipeline-form key validation (`new-pipeline/page.tsx`,
    `edit-pipeline-modal.tsx`).

Conventions:
  - timestamps (`Date` values) are modelled as `Int` milliseconds since the
    Unix epoch; `new Date(d.toISOString())` preserves the millisecond value,
    so persistence of dates is modelled at the timestamp level;
  - JavaScript numeric strings are modelled with exact rationals (IEEE-754
    rounding is not modelled);
  - fallible operations return `Option`.
-/
import Mathlib

namespace PipelineAutomation

/-! ## Execution data model (`types/execution.ts`) -/

/-- `ExecutionStatus` from `types/execution.ts`:
`"PENDING" | "STARTED" | "SUCCESS" | "FAILURE"`. -/
inductive ExecutionStatus
  | PENDING
  | STARTED
  | SUCCESS
  | FAILURE
deriving DecidableEq, Repr

/-- `Execution` from `types/execution.ts`. `Date` fields are epoch
milliseconds; optional/nullable fields are `Option`. -/
structure Execution where
  requestId : String
  pipelineName : String
  version : String
  params : String
  status : ExecutionStatus
  retryCount : Int
  createdAt : Int
  startedAt : Option Int
  finishedAt : Option Int
  outputType : Option String
  outputPath : Option String
  error : Option String
  logs : List String
deriving DecidableEq, Repr

/-- Status filter value: `ExecutionStatus | "ALL"`. -/
inductive StatusFilter
  | ALL
  | only (s : ExecutionStatus)
deriving DecidableEq, Repr

/-- `ExecutionFilter` from `types/execution.ts`; every field optional. -/
structure ExecutionFilter where
  search : Option String
  status : Option StatusFilter
  dateFrom : Option Int
  dateTo : Option Int
deriving DecidableEq, Repr

/-! ## The JavaScript stable sort

`Array.prototype.sort(cmp)` with a consistent comparator produces the stable
order: `a` precedes `b` whenever `cmp a b < 0`, and elements the comparator
ties keep their original relative order.  We model it as a stable insertion
sort: each element is inserted in front of the first element of the already
sorted tail that it does not strictly follow. -/

/-- Insert `x` before the first `y` with `cmp x y ≤ 0` (stable: `x`, which
originates earlier in the input, stays in front of elements it ties with). -/
def jsInsert (cmp : α → α → Int) (x : α) : List α → List α
  | [] => [x]
  | y :: ys => if cmp x y ≤ 0 then x :: y :: ys else y :: jsInsert cmp x ys

/-- Stable sort by a JavaScript comparator. -/
def jsSort (cmp : α → α → Int) : List α → List α
  | [] => []
  | x :: xs => jsInsert cmp x (jsSort cmp xs)

/-- The comparator of `getMockExecutions` (`lib/mock-data.ts`):
finished executions first, most recently finished first; unfinished
executions tie with each other. -/
def compareFinished (a b : Execution) : Int :=
  match a.finishedAt, b.finishedAt with
  | none, none => 0
  | none, some _ => 1
  | some _, none => -1
  | some ta, some tb => tb - ta

/-- The comparator of `fetchExecutions` (`lib/execution-client.ts`):
`b.createdAt.getTime() - a.createdAt.getTime()`, i.e. creation time
descending. -/
def compareCreated (a b : Execution) : Int :=
  b.createdAt - a.createdAt

/-! ## Client-side filtering (shared by both fetch paths) -/

/-- `haystack.includes(needle)` on raw character data. -/
def jsIncludes (haystack needle : String) : Bool :=
  decide (needle.data <:+: haystack.data)

/-- The free-text predicate: case-insensitive substring match against
request id, pipeline name, or version. -/
def matchesSearch (s : String) (e : Execution) : Bool :=
  jsIncludes e.requestId.toLower s.toLower
    || jsIncludes e.pipelineName.toLower s.toLower
    || jsIncludes e.version.toLower s.toLower

/-- `dateTo.setHours(23, 59, 59, 999)`: push a timestamp to the last
millisecond of its day (UTC day boundaries; the source uses the browser's
local timezone, a fixed offset of this). -/
def endOfDay (t : Int) : Int :=
  t - t.emod 86400000 + 86399999

/-- The client-side filter chain, common to `fetchExecutions` and
`getMockExecutions`: free text, then status, then inclusive date range on
`createdAt` with the upper bound extended to end-of-day.  An absent search
string and the empty search string are both skipped (JS truthiness); a
status of `"ALL"` is skipped. -/
def applyFilters (filters : ExecutionFilter) (l : List Execution) : List Execution :=
  let l := match filters.search with
    | some s => if s = "" then l else l.filter (matchesSearch s)
    | none => l
  let l := match filters.status with
    | some (StatusFilter.only st) => l.filter (fun e => e.status = st)
    | _ => l
  let l := match filters.dateFrom with
    | some d => l.filter (fun e => d ≤ e.createdAt)
    | none => l
  match filters.dateTo with
  | some d => l.filter (fun e => e.createdAt ≤ endOfDay d)
  | none => l

/-- `list.slice(start, start + pageSize)` with `start = (page - 1) * pageSize`. -/
def paginate (page pageSize : Nat) (l : List α) : List α :=
  (l.drop ((page - 1) * pageSize)).take pageSize

/-- The list produced by `fetchExecutions` (`lib/execution-client.ts`)
before pagination: filter, then sort by **creation time** descending.
We model the pipeline from the point after `mapTaskToExecution`. -/
def fetchExecutionsSorted (filters : ExecutionFilter) (tasks : List Execution) :
    List Execution :=
  jsSort compareCreated (applyFilters filters tasks)

/-- `fetchExecutions` (`lib/execution-client.ts`): the page of executions
shown by the monitor, and the total count of filtered executions. -/
def fetchExecutions (filters : ExecutionFilter) (page pageSize : Nat)
    (tasks : List Execution) : List Execution × Nat :=
  let sorted := fetchExecutionsSorted filters tasks
  (paginate page pageSize sorted, sorted.length)

/-- The list produced by `getMockExecutions` (`lib/mock-data.ts`) before
pagination: filter, then sort by **finish time** descending with unfinished
executions last. -/
def getMockExecutionsSorted (filters : ExecutionFilter) (tasks : List Execution) :
    List Execution :=
  jsSort compareFinished (applyFilters filters tasks)

/-- `getMockExecutions` (`lib/mock-data.ts`). -/
def getMockExecutions (filters : ExecutionFilter) (page pageSize : Nat)
    (tasks : List Execution) : List Execution × Nat :=
  let sorted := getMockExecutionsSorted filters tasks
  (paginate page pageSize sorted, sorted.length)

/-! ## Download availability (`MonitorExecutions` in the monitor page,
`downloadMockFile` in `lib/mock-data.ts`) -/

/-- Three hours in milliseconds. -/
def threeHoursMs : Int := 3 * 60 * 60 * 1000

/-- `isDownloadAvailable` (monitor page): status `SUCCESS`, a finish time
present, and `Date.now() - finishedAt.getTime() <= threeHours`. -/
def isDownloadAvailable (e : Execution) (now : Int) : Bool :=
  if e.status ≠ ExecutionStatus.SUCCESS then false
  else match e.finishedAt with
    | none => false
    | some t => now - t ≤ threeHoursMs

/-- `getExpiryDate` (monitor page). -/
def getExpiryDate (finishedAt : Int) : Int :=
  finishedAt + threeHoursMs

/-- What the "Disponibilidade" table cell renders. -/
inductive AvailabilityCell
  | countdown (expiry : Int)
  | expired
  | dash
deriving DecidableEq, Repr

/-- The "Disponibilidade" cell: a countdown while available, the string
"Expirado" once a `SUCCESS` execution's window has passed, "-" otherwise. -/
def availabilityCell (e : Execution) (now : Int) : AvailabilityCell :=
  match e.finishedAt with
  | some t =>
      if e.status = ExecutionStatus.SUCCESS then
        if isDownloadAvailable e now then AvailabilityCell.countdown (getExpiryDate t)
        else AvailabilityCell.expired
      else AvailabilityCell.dash
  | none => AvailabilityCell.dash

/-- The download button's `disabled` attribute in the monitor's action
column. -/
def downloadActionDisabled (e : Execution) (now : Int) : Bool :=
  ! isDownloadAvailable e now

/-- The download button's tooltip text. -/
def downloadTooltip (e : Execution) (now : Int) : String :=
  if isDownloadAvailable e now then "Baixar arquivo"
  else if e.status = ExecutionStatus.SUCCESS then "Arquivo expirado"
  else "Download indisponível"

/-- Result shape of `downloadMockFile`. -/
structure DownloadResult where
  success : Bool
  message : Option String
deriving DecidableEq, Repr

/-- `downloadMockFile` (`lib/mock-data.ts`): look the execution up by id,
then refuse unless it succeeded, finished, and finished within the last
three hours. -/
def downloadMockFile (store : List Execution) (requestId : String) (now : Int) :
    DownloadResult :=
  match store.find? (fun e => e.requestId = requestId) with
  | none => ⟨false, some "Execução não encontrada"⟩
  | some e =>
      if e.status ≠ ExecutionStatus.SUCCESS then
        ⟨false, some "Arquivo disponível apenas para execuções bem-sucedidas"⟩
      else match e.finishedAt with
        | none => ⟨false, some "Execução não finalizada"⟩
        | some t =>
            if now - t > threeHoursMs then
              ⟨false, some "Arquivo expirado (disponível por até 3 horas após a conclusão)"⟩
            else ⟨true, none⟩

/-! ## Properties of the stable sort -/

theorem jsInsert_perm (cmp : α → α → Int) (x : α) (l : List α) :
    List.Perm (jsInsert cmp x l) (x :: l) := by
  induction l with
  | nil => rfl
  | cons y ys ih =>
    by_cases h : cmp x y ≤ 0
    · simp [jsInsert, h]
    · simp only [jsInsert, if_neg h]
      exact (List.Perm.cons y ih).trans (List.Perm.swap x y ys)

theorem jsSort_perm (cmp : α → α → Int) (l : List α) :
    List.Perm (jsSort cmp l) l := by
  induction l with
  | nil => rfl
  | cons x xs ih =>
    exact (jsInsert_perm cmp x (jsSort cmp xs)).trans (List.Perm.cons x ih)

theorem jsInsert_pairwise (cmp : α → α → Int)
    (htot : ∀ a b, cmp a b ≤ 0 ∨ cmp b a ≤ 0)
    (htrans : ∀ a b c, cmp a b ≤ 0 → cmp b c ≤ 0 → cmp a c ≤ 0)
    (x : α) (l : List α) (h : l.Pairwise (fun a b => cmp a b ≤ 0)) :
    (jsInsert cmp x l).Pairwise (fun a b => cmp a b ≤ 0) := by
  induction l with
  | nil => simp [jsInsert]
  | cons y ys ih =>
    rcases List.pairwise_cons.mp h with ⟨hy, hys⟩
    by_cases hxy : cmp x y ≤ 0
    · simp only [jsInsert, if_pos hxy]
      refine List.Pairwise.cons ?_ h
      intro b hb
      rcases List.mem_cons.mp hb with rfl | hb
      · exact hxy
      · exact htrans x y b hxy (hy b hb)
    · simp only [jsInsert, if_neg hxy]
      refine List.Pairwise.cons ?_ (ih hys)
      intro b hb
      have hmem : b ∈ x :: ys := (jsInsert_perm cmp x ys).mem_iff.mp hb
      rcases List.mem_cons.mp hmem with rfl | hb'
      · rcases htot b y with h1 | h1
        · exact absurd h1 hxy
        · exact h1
      · exact hy b hb'

theorem jsSort_pairwise (cmp : α → α → Int)
    (htot : ∀ a b, cmp a b ≤ 0 ∨ cmp b a ≤ 0)
    (htrans : ∀ a b c, cmp a b ≤ 0 → cmp b c ≤ 0 → cmp a c ≤ 0)
    (l : List α) :
    (jsSort cmp l).Pairwise (fun a b => cmp a b ≤ 0) := by
  induction l with
  | nil => simp [jsSort]
  | cons x xs ih => exact jsInsert_pairwise cmp htot htrans x _ ih

theorem filter_jsInsert_of_neg (cmp : α → α → Int) (p : α → Bool) (x : α)
    (hx : p x = false) (l : List α) :
    (jsInsert cmp x l).filter p = l.filter p := by
  induction l with
  | nil => simp [jsInsert, hx]
  | cons y ys ih =>
    by_cases h : cmp x y ≤ 0
    · simp [jsInsert, h, hx, List.filter_cons]
    · simp only [jsInsert, if_neg h, List.filter_cons, ih]

theorem compareFinished_total (a b : Execution) :
    compareFinished a b ≤ 0 ∨ compareFinished b a ≤ 0 := by
  unfold compareFinished
  cases ha : a.finishedAt <;> cases hb : b.finishedAt <;>
    simp only [ha, hb] <;> omega

theorem compareFinished_trans (a b c : Execution)
    (h1 : compareFinished a b ≤ 0) (h2 : compareFinished b c ≤ 0) :
    compareFinished a c ≤ 0 := by
  unfold compareFinished at h1 h2 ⊢
  cases ha : a.finishedAt <;> cases hb : b.finishedAt <;> cases hc : c.finishedAt <;>
    simp only [ha, hb, hc] at h1 h2 ⊢ <;> omega

theorem compareCreated_total (a b : Execution) :
    compareCreated a b ≤ 0 ∨ compareCreated b a ≤ 0 := by
  unfold compareCreated; omega

theorem compareCreated_trans (a b c : Execution)
    (h1 : compareCreated a b ≤ 0) (h2 : compareCreated b c ≤ 0) :
    compareCreated a c ≤ 0 := by
  unfold compareCreated at *; omega

/-- Inserting an unfinished execution with the finish-time comparator passes
every finished execution and stops in front of the first unfinished one. -/
theorem filter_jsInsert_unfinished (x : Execution) (hx : x.finishedAt = none)
    (l : List Execution) :
    (jsInsert compareFinished x l).filter (fun e => e.finishedAt.isNone)
      = x :: l.filter (fun e => e.finishedAt.isNone) := by
  induction l with
  | nil => simp [jsInsert, hx]
  | cons y ys ih =>
    cases hy : y.finishedAt with
    | none =>
        have hc : compareFinished x y ≤ 0 := by simp [compareFinished, hx, hy]
        simp [jsInsert, hc, hx, hy, List.filter_cons]
    | some t =>
        have hc : ¬ compareFinished x y ≤ 0 := by simp [compareFinished, hx, hy]
        simp only [jsInsert, if_neg hc, List.filter_cons, hy]
        simp [ih]

/-- Stability of the mock sort on unfinished executions: sorting with the
finish-time comparator leaves the subsequence of unfinished executions
unchanged. -/
theorem filter_unfinished_jsSort (l : List Execution) :
    (jsSort compareFinished l).filter (fun e => e.finishedAt.isNone)
      = l.filter (fun e => e.finishedAt.isNone) := by
  induction l with
  | nil => rfl
  | cons x xs ih =>
    cases hx : x.finishedAt with
    | none =>
        rw [jsSort, filter_jsInsert_unfinished x hx, ih]
        simp [List.filter_cons, hx]
    | some t =>
        rw [jsSort, filter_jsInsert_of_neg]
        · rw [ih]; simp [List.filter_cons, hx]
        · simp [hx]

/-! ## Concrete executions used as test vectors -/

/-- An execution that has not finished yet, created at t = 10 ms. -/
def sampleUnfinished : Execution :=
  { requestId := "t1", pipelineName := "pipeA", version := "v1", params := ""
    status := ExecutionStatus.STARTED, retryCount := 0, createdAt := 10
    startedAt := some 1, finishedAt := none, outputType := none
    outputPath := none, error := none, logs := [] }

/-- An execution finished at t = 5 ms, created at t = 0 ms. -/
def sampleFinished : Execution :=
  { requestId := "t2", pipelineName := "pipeB", version := "v1", params := ""
    status := ExecutionStatus.SUCCESS, retryCount := 0, createdAt := 0
    startedAt := some 1, finishedAt := some 5, outputType := some "CSV"
    outputPath := none, error := none, logs := [] }

/-- The filter state the monitor starts from (everything unset). -/
def emptyFilter : ExecutionFilter := ⟨none, none, none, none⟩

/-! ## C1: monitor sort order -/

/-- C1 counterexample: the monitor fetches through `fetchExecutions`
(`lib/execution-client.ts`), which sorts by `createdAt` descending, not by
finish time.  With an unfinished task created at t = 10 and a finished task
(`finishedAt = some 5`) created at t = 0, the presented page puts the
unfinished task first, so the task with a finish time does **not** sort
first. -/
theorem C1_counterexample :
    (fetchExecutions emptyFilter 1 10 [sampleUnfinished, sampleFinished]).1
        = [sampleUnfinished, sampleFinished]
      ∧ sampleUnfinished.finishedAt = none
      ∧ sampleFinished.finishedAt = some 5 := by
  refine ⟨?_, rfl, rfl⟩
  rfl

/-- C1 (amended): the mock helper `getMockExecutions` sorts by finish time
descending with unfinished executions trailing finished ones and keeping
their relative order; the live fetch path used by the monitor
(`fetchExecutions`) instead sorts by creation time descending.  On the mock
path a task with `finishedAt = T` sorts before one with `finishedAt = null`. -/
theorem C1_sorting (filters : ExecutionFilter) (tasks : List Execution) :
    ((getMockExecutionsSorted filters tasks).Pairwise (fun a b =>
        (a.finishedAt = none → b.finishedAt = none) ∧
          (∀ ta tb, a.finishedAt = some ta → b.finishedAt = some tb → tb ≤ ta)))
      ∧ ((getMockExecutionsSorted filters tasks).filter (fun e => e.finishedAt.isNone)
          = (applyFilters filters tasks).filter (fun e => e.finishedAt.isNone))
      ∧ ((fetchExecutionsSorted filters tasks).Pairwise (fun a b =>
          b.createdAt ≤ a.createdAt))
      ∧ (getMockExecutions emptyFilter 1 10 [sampleUnfinished, sampleFinished]).1
          = [sampleFinished, sampleUnfinished] := by
  refine ⟨?_, filter_unfinished_jsSort _, ?_, ?_⟩
  · have h := jsSort_pairwise compareFinished compareFinished_total
      compareFinished_trans (applyFilters filters tasks)
    refine h.imp ?_
    intro a b hab
    unfold compareFinished at hab
    constructor
    · intro ha
      cases hb : b.finishedAt with
      | none => rfl
      | some tb => simp only [ha, hb] at hab; omega
    · intro ta tb ha hb
      simp only [ha, hb] at hab; omega
  · have h := jsSort_pairwise compareCreated compareCreated_total
      compareCreated_trans (applyFilters filters tasks)
    refine h.imp ?_
    intro a b hab
    unfold compareCreated at hab; omega
  · rfl

/-! ## C2: download availability -/

/-- A successful execution whose finish time is 2 h 59 min before the
reference instant `21600000` (= 6 h after the epoch). -/
def successFresh : Execution :=
  { sampleFinished with requestId := "r1", finishedAt := some (21600000 - 10740000) }

/-- A successful execution whose finish time is 3 h 1 min before the
reference instant `21600000`. -/
def successStale : Execution :=
  { sampleFinished with requestId := "r2", finishedAt := some (21600000 - 10860000) }

/-- C2: the download action is available exactly when the status is
`SUCCESS`, a finish time is present, and the current time is at most three
hours past it; the action button is disabled otherwise.  At
`finishedAt = now - 2h59m` the download is available; at
`finishedAt = now - 3h1m` the cell reports expiry, the button is disabled,
and `downloadMockFile` refuses with the expiry message. -/
theorem C2_download_availability (e : Execution) (now : Int) :
    (isDownloadAvailable e now = true ↔
        e.status = ExecutionStatus.SUCCESS ∧
          ∃ t, e.finishedAt = some t ∧ now - t ≤ threeHoursMs)
      ∧ downloadActionDisabled e now = ! isDownloadAvailable e now
      ∧ isDownloadAvailable successFresh 21600000 = true
      ∧ downloadActionDisabled successFresh 21600000 = false
      ∧ isDownloadAvailable successStale 21600000 = false
      ∧ availabilityCell successStale 21600000 = AvailabilityCell.expired
      ∧ downloadActionDisabled successStale 21600000 = true
      ∧ downloadTooltip successStale 21600000 = "Arquivo expirado"
      ∧ downloadMockFile [successStale] "r2" 21600000
          = ⟨false, some "Arquivo expirado (disponível por até 3 horas após a conclusão)"⟩ := by
  refine ⟨?_, rfl, by decide, by decide, by decide, by decide, by decide, ?_, ?_⟩
  · unfold isDownloadAvailable
    by_cases hs : e.status = ExecutionStatus.SUCCESS
    · cases hf : e.finishedAt with
      | none => simp [hs, hf]
      | some t => simp [hs, hf]
    · simp [hs]
  · rfl
  · rfl

/-! ## Monitor component state (`MonitorExecutions`)

The monitor holds `currentPage` (initially 1), `totalExecutions` (initially
0), the filter record (initially `search = ""`, `status = "ALL"`, no dates)
and a fixed `pageSize` of 10.  `handleFilterChange` writes one filter field
and resets the page to 1; the pagination buttons are rendered only when
`totalPages > 1`, the "Anterior" button is disabled on page 1 and
"Próxima" on the last page; a completed fetch overwrites
`totalExecutions` with the fetched total and leaves the page unchanged. -/

/-- The monitor's fixed page size. -/
def monitorPageSize : Nat := 10

/-- The mutable monitor state. -/
structure MonitorState where
  currentPage : Nat
  totalExecutions : Nat
  filters : ExecutionFilter
deriving DecidableEq, Repr

/-- `Math.ceil(totalExecutions / pageSize)`. -/
def totalPages (s : MonitorState) : Nat :=
  (s.totalExecutions + monitorPageSize - 1) / monitorPageSize

/-- A single filter-field update, as passed to `handleFilterChange`. -/
inductive FilterField
  | search (v : Option String)
  | status (v : Option StatusFilter)
  | dateFrom (v : Option Int)
  | dateTo (v : Option Int)
deriving DecidableEq, Repr

/-- `{ ...prev, [key]: value }`. -/
def setFilter (f : ExecutionFilter) : FilterField → ExecutionFilter
  | FilterField.search v => { f with search := v }
  | FilterField.status v => { f with status := v }
  | FilterField.dateFrom v => { f with dateFrom := v }
  | FilterField.dateTo v => { f with dateTo := v }

/-- User-visible events of the monitor page.  `dataLoaded tasks` is the
completion of a fetch against a server task list `tasks`. -/
inductive MonitorEvent
  | filterChange (f : FilterField)
  | nextPage
  | prevPage
  | dataLoaded (tasks : List Execution)

/-- Initial monitor state (`useState` initializers). -/
def monitorInit : MonitorState :=
  ⟨1, 0, ⟨some "", some StatusFilter.ALL, none, none⟩⟩

/-- One step of the monitor.  The page buttons only fire when the
pagination bar is rendered (`totalPages > 1`) and the button is not
disabled. -/
def monitorStep (s : MonitorState) : MonitorEvent → MonitorState
  | MonitorEvent.filterChange f =>
      { s with filters := setFilter s.filters f, currentPage := 1 }
  | MonitorEvent.nextPage =>
      if 1 < totalPages s ∧ s.currentPage ≠ totalPages s then
        { s with currentPage := min (s.currentPage + 1) (totalPages s) }
      else s
  | MonitorEvent.prevPage =>
      if 1 < totalPages s ∧ s.currentPage ≠ 1 then
        { s with currentPage := max (s.currentPage - 1) 1 }
      else s
  | MonitorEvent.dataLoaded tasks =>
      { s with totalExecutions :=
          (fetchExecutions s.filters s.currentPage monitorPageSize tasks).2 }

/-- Run the monitor from its initial state through a list of events. -/
def monitorRun (events : List MonitorEvent) : MonitorState :=
  events.foldl monitorStep monitorInit

theorem monitorStep_page_pos (s : MonitorState) (e : MonitorEvent)
    (h : 1 ≤ s.currentPage) : 1 ≤ (monitorStep s e).currentPage := by
  cases e with
  | filterChange f => simp [monitorStep]
  | nextPage => simp only [monitorStep]; split <;> (try simp) <;> omega
  | prevPage => simp only [monitorStep]; split <;> (try simp) <;> omega
  | dataLoaded tasks => simpa [monitorStep] using h

/-! ## C7: pagination invariant -/

/-- C7 counterexample: after loading a server list of 11 tasks
(`total = 11`, two pages) and paging forward, a refresh that returns an
empty task list leaves the monitor on page 2 while
`ceil(total/pageSize) = 0`, so the page is **not** within
`[1, ceil(total/pageSize)]`. -/
theorem C7_counterexample :
    (monitorRun [MonitorEvent.dataLoaded (List.replicate 11 sampleFinished),
        MonitorEvent.nextPage, MonitorEvent.dataLoaded []]).currentPage = 2
      ∧ totalPages (monitorRun [MonitorEvent.dataLoaded (List.replicate 11 sampleFinished),
          MonitorEvent.nextPage, MonitorEvent.dataLoaded []]) = 0
      ∧ ¬ (monitorRun [MonitorEvent.dataLoaded (List.replicate 11 sampleFinished),
            MonitorEvent.nextPage, MonitorEvent.dataLoaded []]).currentPage
          ≤ totalPages (monitorRun [MonitorEvent.dataLoaded (List.replicate 11 sampleFinished),
              MonitorEvent.nextPage, MonitorEvent.dataLoaded []]) := by
  refine ⟨rfl, rfl, by decide⟩

/-- C7 (amended): the current page is always at least 1, and changing any
filter resets it to 1; the Previous/Next buttons keep the page within
`[1, ceil(total/pageSize)]` **at click time**; but a data refresh that
shrinks the total does not re-clamp the page, so the upper bound can be
exceeded after a reload (and it cannot hold at all while `total = 0`). -/
theorem C7_pagination (events : List MonitorEvent) (s : MonitorState)
    (f : FilterField) :
    1 ≤ (monitorRun events).currentPage
      ∧ (monitorStep s (MonitorEvent.filterChange f)).currentPage = 1
      ∧ (1 ≤ s.currentPage → s.currentPage ≤ totalPages s →
          (monitorStep s MonitorEvent.nextPage).currentPage ≤ totalPages s
            ∧ 1 ≤ (monitorStep s MonitorEvent.nextPage).currentPage
            ∧ (monitorStep s MonitorEvent.prevPage).currentPage ≤ totalPages s
            ∧ 1 ≤ (monitorStep s MonitorEvent.prevPage).currentPage) := by
  refine ⟨?_, rfl, ?_⟩
  · suffices h : ∀ (l : List MonitorEvent) (t : MonitorState),
        1 ≤ t.currentPage → 1 ≤ (l.foldl monitorStep t).currentPage by
      exact h events monitorInit (by decide)
    intro l
    induction l with
    | nil => intro t ht; simpa using ht
    | cons e l ih => intro t ht; exact ih _ (monitorStep_page_pos t e ht)
  · intro h1 h2
    refine ⟨?_, ?_, ?_, ?_⟩ <;> simp only [monitorStep] <;> split <;> (try simp) <;> omega

/-- Witness for `C7_pagination` at a concrete state: on a 2-page total of
11 with the page on 1, clicking "Próxima" keeps the page within bounds. -/
theorem C7_pagination_witness :
    (monitorStep ⟨1, 11, monitorInit.filters⟩ MonitorEvent.nextPage).currentPage
        ≤ totalPages ⟨1, 11, monitorInit.filters⟩
      ∧ 1 ≤ (monitorRun []).currentPage := by
  have h := C7_pagination [] ⟨1, 11, monitorInit.filters⟩
    (FilterField.search none)
  exact ⟨(h.2.2 (by decide) (by decide)).1, h.1⟩

/-! ## JavaScript numeric conversions

`Number(string)`, `Number.parseInt` and `Number.parseFloat`, with numeric
values modelled as exact rationals (`JsNum.finite`), plus `NaN` and the two
infinities. -/

/-- A JavaScript number as far as the form logic observes it. -/
inductive JsNum
  | nan
  | posInf
  | negInf
  | finite (q : Rat)
deriving DecidableEq, Repr

/-- JavaScript `WhiteSpace` and `LineTerminator` characters stripped by
`Number(...)`, `parseInt` and `parseFloat` (the common ones). -/
def jsIsWhitespace (c : Char) : Bool :=
  c = ' ' || c = '\t' || c = '\n' || c = '\r' || c = '\x0b' || c = '\x0c'
    || c = '\u00A0' || c = '\uFEFF' || c = '\u2028' || c = '\u2029'

/-- Strip leading and trailing JavaScript whitespace. -/
def trimChars (cs : List Char) : List Char :=
  ((cs.dropWhile jsIsWhitespace).reverse.dropWhile jsIsWhitespace).reverse

/-- Value of a decimal digit string (most significant first). -/
def natOfDigits (ds : List Char) : Nat :=
  ds.foldl (fun n c => 10 * n + (c.toNat - 48)) 0

/-- Split a character list into its maximal run of leading decimal digits
and the remainder. -/
def splitDigits : List Char → List Char × List Char
  | [] => ([], [])
  | c :: cs =>
      if c.isDigit then
        let p := splitDigits cs
        (c :: p.1, p.2)
      else ([], c :: cs)

/-- The exact rational value of a signed decimal literal
`ipart . fpart e exp` (built with integer arithmetic and `mkRat` so that it
evaluates inside the kernel). -/
def decValue (neg : Bool) (ipart fpart : List Char) (e : Int) : Rat :=
  let m : Int := (natOfDigits ipart * 10 ^ fpart.length + natOfDigits fpart : Nat)
  let m := if neg then -m else m
  match e with
  | Int.ofNat k => mkRat (m * (10 ^ k : Nat)) (10 ^ fpart.length)
  | Int.negSucc k => mkRat m (10 ^ fpart.length * 10 ^ (k + 1))

/-- An exponent's digit run, which must fill the rest of the literal. -/
def expDigits (ds : List Char) : Option Int :=
  if ds = [] then none
  else if ds.all Char.isDigit then some ((natOfDigits ds : Int)) else none

/-- The remainder of a decimal literal after the mantissa: either empty or
a full `e`/`E` exponent part. -/
def parseExponentRest : List Char → Option Int
  | [] => some 0
  | c :: cs =>
      if c = 'e' || c = 'E' then
        match cs with
        | '+' :: ds => expDigits ds
        | '-' :: ds => (expDigits ds).map Int.neg
        | ds => expDigits ds
      else none

/-- `StrUnsignedDecimalLiteral` without the `Infinity` production: digits,
optional fraction, optional exponent, nothing else. -/
def parseUnsignedDecimal (cs : List Char) : Option Rat :=
  let p := splitDigits cs
  match p.2 with
  | '.' :: r2 =>
      let f := splitDigits r2
      if p.1 = [] ∧ f.1 = [] then none
      else (parseExponentRest f.2).map (fun e => decValue false p.1 f.1 e)
  | _ =>
      if p.1 = [] then none
      else (parseExponentRest p.2).map (fun e => decValue false p.1 [] e)

/-- Digit value in radices up to 16. -/
def charDigitVal (c : Char) : Nat :=
  if c.isDigit then c.toNat - 48
  else if 'a' ≤ c ∧ c ≤ 'f' then c.toNat - 87
  else if 'A' ≤ c ∧ c ≤ 'F' then c.toNat - 55
  else 0

/-- Is `c` a digit of the given radix (2, 8, 10 or 16)? -/
def isRadixDigit (radix : Nat) (c : Char) : Bool :=
  if radix = 16 then
    c.isDigit || ('a' ≤ c && c ≤ 'f') || ('A' ≤ c && c ≤ 'F')
  else
    c.isDigit && c.toNat - 48 < radix

/-- A non-empty digit run in the given radix, filling the whole literal. -/
def radixDigitsVal (radix : Nat) (ds : List Char) : Option Rat :=
  if ds = [] then none
  else if ds.all (isRadixDigit radix) then
    some (mkRat (ds.foldl (fun n c => radix * n + charDigitVal c) 0 : Nat) 1)
  else none

/-- `0x`/`0o`/`0b` integer literals (no sign allowed). -/
def parseNonDecimal : List Char → Option Rat
  | '0' :: c :: ds =>
      if c = 'x' || c = 'X' then radixDigitsVal 16 ds
      else if c = 'o' || c = 'O' then radixDigitsVal 8 ds
      else if c = 'b' || c = 'B' then radixDigitsVal 2 ds
      else none
  | _ => none

/-- `Number(string)` (ECMAScript `ToNumber` on strings): trim, empty means
0, optional sign on decimal literals and `Infinity`, unsigned `0x`/`0o`/`0b`
literals; anything else is `NaN`. -/
def jsToNumber (s : String) : JsNum :=
  let cs := trimChars s.data
  match cs with
  | [] => JsNum.finite 0
  | _ =>
      let p : Bool × List Char :=
        match cs with
        | '+' :: r => (false, r)
        | '-' :: r => (true, r)
        | r => (false, r)
      if p.2 = "Infinity".data then
        if p.1 then JsNum.negInf else JsNum.posInf
      else
        match parseNonDecimal cs with
        | some q => JsNum.finite q
        | none =>
            match parseUnsignedDecimal p.2 with
            | some q => JsNum.finite (if p.1 then -q else q)
            | none => JsNum.nan

/-- `Number.isInteger` on the observed value. -/
def jsIsInteger : JsNum → Bool
  | JsNum.finite q => q.den = 1
  | _ => false

/-- `isNaN` applied to a converted value. -/
def jsIsNaN : JsNum → Bool
  | JsNum.nan => true
  | _ => false

/-- `Number.parseInt(string)` with no explicit radix: skip leading
whitespace, optional sign, optional `0x` prefix, then the maximal digit
prefix; no digits means `NaN` (`none`). -/
def jsParseInt (s : String) : Option Int :=
  let cs := s.data.dropWhile jsIsWhitespace
  let p : Bool × List Char :=
    match cs with
    | '+' :: r => (false, r)
    | '-' :: r => (true, r)
    | r => (false, r)
  let q : Nat × List Char :=
    match p.2 with
    | '0' :: 'x' :: r => (16, r)
    | '0' :: 'X' :: r => (16, r)
    | r => (10, r)
  let ds := q.2.takeWhile (isRadixDigit q.1)
  if ds = [] then none
  else
    let n : Nat := ds.foldl (fun n c => q.1 * n + charDigitVal c) 0
    some (if p.1 then -(n : Int) else (n : Int))

/-- The value of a valid exponent-part prefix (`e`/`E`, optional sign, at
least one digit); `0` when no such prefix is present. -/
def expPrefixVal : List Char → Int
  | [] => 0
  | c :: rest =>
      if c = 'e' || c = 'E' then
        let p : Bool × List Char :=
          match rest with
          | '+' :: r => (false, r)
          | '-' :: r => (true, r)
          | r => (false, r)
        let ds := p.2.takeWhile Char.isDigit
        if ds = [] then 0
        else if p.1 then -(natOfDigits ds : Int) else (natOfDigits ds : Int)
      else 0

/-- `Number.parseFloat(string)`: the longest prefix that is a valid decimal
literal (sign, `Infinity`, digits with optional fraction and exponent);
`NaN` when no prefix qualifies. -/
def jsParseFloat (s : String) : JsNum :=
  let cs := s.data.dropWhile jsIsWhitespace
  let p : Bool × List Char :=
    match cs with
    | '+' :: r => (false, r)
    | '-' :: r => (true, r)
    | r => (false, r)
  if "Infinity".data.isPrefixOf p.2 then
    if p.1 then JsNum.negInf else JsNum.posInf
  else
    let ip := splitDigits p.2
    let fp : List Char × List Char :=
      match ip.2 with
      | '.' :: rr => splitDigits rr
      | r => ([], r)
    if ip.1 = [] ∧ fp.1 = [] then JsNum.nan
    else JsNum.finite (decValue p.1 ip.1 fp.1 (expPrefixVal fp.2))

/-! ## JSON values and `JSON.parse` -/

/-- A parsed JSON value.  Object members keep their textual order. -/
inductive Json
  | null
  | bool (b : Bool)
  | num (q : Rat)
  | str (s : String)
  | arr (elems : List Json)
  | obj (members : List (String × Json))

/-- JSON insignificant whitespace. -/
def jsonWs (c : Char) : Bool :=
  c = ' ' || c = '\t' || c = '\n' || c = '\r'

/-- Skip insignificant whitespace. -/
def skipWs (cs : List Char) : List Char :=
  cs.dropWhile jsonWs

/-- Is `c` a hexadecimal digit? -/
def isHexDigitChar (c : Char) : Bool :=
  c.isDigit || ('a' ≤ c && c ≤ 'f') || ('A' ≤ c && c ≤ 'F')

/-- Value of a hexadecimal digit string. -/
def hexValOf (ds : List Char) : Nat :=
  ds.foldl (fun n c => 16 * n + charDigitVal c) 0

/-- Parse the body of a JSON string after the opening quote, handling the
escape sequences of the JSON grammar.  (A `\u` escape naming an invalid
scalar value falls back to `Char.ofNat`'s default; lone surrogates of
JavaScript's UTF-16 strings are outside the model.) -/
def parseStringBody : Nat → List Char → Option (String × List Char)
  | 0, _ => none
  | _, [] => none
  | fuel+1, c :: cs =>
      if c = '"' then some ("", cs)
      else if c = '\\' then
        match cs with
        | [] => none
        | e :: cs2 =>
            let esc : Option (Char × List Char) :=
              if e = '"' then some ('"', cs2)
              else if e = '\\' then some ('\\', cs2)
              else if e = '/' then some ('/', cs2)
              else if e = 'b' then some ('\x08', cs2)
              else if e = 'f' then some ('\x0c', cs2)
              else if e = 'n' then some ('\n', cs2)
              else if e = 'r' then some ('\r', cs2)
              else if e = 't' then some ('\t', cs2)
              else if e = 'u' then
                match cs2 with
                | h1 :: h2 :: h3 :: h4 :: cs3 =>
                    if [h1, h2, h3, h4].all isHexDigitChar then
                      some (Char.ofNat (hexValOf [h1, h2, h3, h4]), cs3)
                    else none
                | _ => none
              else none
            match esc with
            | some (ch, rest) =>
                (parseStringBody fuel rest).map
                  (fun r => (String.mk (ch :: r.1.data), r.2))
            | none => none
      else if c.toNat < 32 then none
      else
        (parseStringBody fuel cs).map
          (fun r => (String.mk (c :: r.1.data), r.2))

/-- Parse a JSON number: `-? (0 | [1-9][0-9]*) (. [0-9]+)? ([eE][+-]?[0-9]+)?`.
The fraction/exponent parts back off when incomplete; the garbage they leave
behind then fails the surrounding context, as in the JSON grammar. -/
def parseJsonNumber (cs : List Char) : Option (Rat × List Char) :=
  let sp : Bool × List Char :=
    match cs with
    | '-' :: r => (true, r)
    | r => (false, r)
  let intRes : Option (List Char × List Char) :=
    match sp.2 with
    | '0' :: r => some (['0'], r)
    | c :: r =>
        if c.isDigit then some (c :: r.takeWhile Char.isDigit, r.dropWhile Char.isDigit)
        else none
    | [] => none
  match intRes with
  | none => none
  | some (ipart, r1) =>
      let fr : List Char × List Char :=
        match r1 with
        | '.' :: rr =>
            let ds := rr.takeWhile Char.isDigit
            if ds = [] then ([], r1) else (ds, rr.dropWhile Char.isDigit)
        | _ => ([], r1)
      let ex : Int × List Char :=
        match fr.2 with
        | c :: rest =>
            if c = 'e' || c = 'E' then
              let p : Bool × List Char :=
                match rest with
                | '+' :: r => (false, r)
                | '-' :: r => (true, r)
                | r => (false, r)
              let ds := p.2.takeWhile Char.isDigit
              if ds = [] then (0, fr.2)
              else if p.1 then (-(natOfDigits ds : Int), p.2.dropWhile Char.isDigit)
              else ((natOfDigits ds : Int), p.2.dropWhile Char.isDigit)
            else (0, fr.2)
        | [] => (0, fr.2)
      some (decValue sp.1 ipart fr.1 ex.1, ex.2)

mutual

/-- Parse one JSON value (fuel-indexed recursion). -/
def parseJsonValue : Nat → List Char → Option (Json × List Char)
  | 0, _ => none
  | Nat.succ fuel, cs =>
      match skipWs cs with
      | 'n' :: 'u' :: 'l' :: 'l' :: r => some (Json.null, r)
      | 't' :: 'r' :: 'u' :: 'e' :: r => some (Json.bool true, r)
      | 'f' :: 'a' :: 'l' :: 's' :: 'e' :: r => some (Json.bool false, r)
      | '"' :: r =>
          (parseStringBody (r.length + 1) r).map (fun p => (Json.str p.1, p.2))
      | '[' :: r =>
          (match skipWs r with
           | ']' :: r2 => some (Json.arr [], r2)
           | r2 => (parseJsonElems fuel r2).map (fun p => (Json.arr p.1, p.2)))
      | '\x7b' :: r =>
          (match skipWs r with
           | '\x7d' :: r2 => some (Json.obj [], r2)
           | r2 => (parseJsonMembers fuel r2).map (fun p => (Json.obj p.1, p.2)))
      | r => (parseJsonNumber r).map (fun p => (Json.num p.1, p.2))

/-- Parse the non-empty element list of a JSON array, consuming the closing
bracket. -/
def parseJsonElems : Nat → List Char → Option (List Json × List Char)
  | 0, _ => none
  | Nat.succ fuel, cs =>
      match parseJsonValue fuel cs with
      | none => none
      | some (v, r) =>
          match skipWs r with
          | ',' :: r2 => (parseJsonElems fuel r2).map (fun p => (v :: p.1, p.2))
          | ']' :: r2 => some ([v], r2)
          | _ => none

/-- Parse the non-empty member list of a JSON object, consuming the closing
brace. -/
def parseJsonMembers : Nat → List Char → Option (List (String × Json) × List Char)
  | 0, _ => none
  | Nat.succ fuel, cs =>
      match skipWs cs with
      | '"' :: r =>
          match parseStringBody (r.length + 1) r with
          | none => none
          | some (k, r2) =>
              match skipWs r2 with
              | ':' :: r3 =>
                  match parseJsonValue fuel r3 with
                  | none => none
                  | some (v, r4) =>
                      match skipWs r4 with
                      | ',' :: r5 =>
                          (parseJsonMembers fuel r5).map
                            (fun p => ((k, v) :: p.1, p.2))
                      | '\x7d' :: r5 => some ([(k, v)], r5)
                      | _ => none
              | _ => none
      | _ => none

end

/-- `JSON.parse`: one value, possibly surrounded by whitespace, reaching
the end of the input; `none` models the thrown `SyntaxError`. -/
def jsonParse (s : String) : Option Json :=
  match parseJsonValue (2 * s.data.length + 2) s.data with
  | some (v, r) => if skipWs r = [] then some v else none
  | none => none

/-! ## Pipeline data model (`types/pipeline.ts`) -/

/-- `ParameterType`: `"int" | "number" | "float" | "string" | "list" | "dict"`. -/
inductive ParameterType
  | int
  | number
  | float
  | string
  | list
  | dict
deriving DecidableEq, Repr

/-- `PipelineParameter`: key, declared type, nullable default value. -/
structure PipelineParameter where
  key : String
  type : ParameterType
  value : Option String
deriving DecidableEq, Repr

/-- `Pipeline`: identity, name, description, creation timestamp (epoch
milliseconds) and ordered parameter list. -/
structure Pipeline where
  id : String
  name : String
  description : String
  createdAt : Int
  parameters : List PipelineParameter
deriving DecidableEq, Repr

/-! ## Execution-form validation (`components/execution-form.tsx`) -/

/-- `validateParameterValue`: the thrown error message, or `none` when the
value is acceptable for the declared type. -/
def validateParameterValue (type : ParameterType) (value : String) : Option String :=
  match type with
  | ParameterType.int =>
      if jsIsInteger (jsToNumber value) then none
      else some "Valor deve ser um número inteiro"
  | ParameterType.number =>
      if jsIsNaN (jsToNumber value) then some "Valor deve ser um número" else none
  | ParameterType.float =>
      if jsIsNaN (jsToNumber value) then some "Valor deve ser um número" else none
  | ParameterType.list =>
      match jsonParse value with
      | some (Json.arr _) => none
      | _ => some "Valor deve ser um array JSON válido"
  | ParameterType.dict =>
      match jsonParse value with
      | some (Json.obj _) => none
      | _ => some "Valor deve ser um objeto JSON válido"
  | ParameterType.string => none

/-- The form's `values` record: parameter key to raw entered string; an
absent key is JavaScript `undefined`. -/
def lookupValue (values : List (String × String)) (k : String) : Option String :=
  (values.find? (fun e => e.1 = k)).map (fun e => e.2)

/-- `validateValues`: one error per failing parameter.  An absent or empty
entry is rejected as mandatory before the type-specific check runs. -/
def validateValues (parameters : List PipelineParameter)
    (values : List (String × String)) : List (String × String) :=
  parameters.filterMap (fun param =>
    match lookupValue values param.key with
    | none => some (param.key, "Valor é obrigatório")
    | some v =>
        if v = "" then some (param.key, "Valor é obrigatório")
        else (validateParameterValue param.type v).map (fun msg => (param.key, msg)))

/-- A coerced parameter value as built by `processValues`. -/
inductive CoercedValue
  | int (n : Option Int)
  | num (x : JsNum)
  | json (j : Option Json)
  | str (s : String)

/-- `processValues`: coerce every entered value according to its declared
type (`parseInt`, `parseFloat`, `JSON.parse`, or the raw string). -/
def processValues (parameters : List PipelineParameter)
    (values : List (String × String)) : List (String × CoercedValue) :=
  parameters.filterMap (fun param =>
    match lookupValue values param.key with
    | none => none
    | some v =>
        some (param.key,
          match param.type with
          | ParameterType.int => CoercedValue.int (jsParseInt v)
          | ParameterType.number => CoercedValue.num (jsParseFloat v)
          | ParameterType.float => CoercedValue.num (jsParseFloat v)
          | ParameterType.list => CoercedValue.json (jsonParse v)
          | ParameterType.dict => CoercedValue.json (jsonParse v)
          | ParameterType.string => CoercedValue.str v))

/-- `handleExecute`: validate, and only submit (`some payload`) when no
parameter has an error. -/
def handleExecute (pipeline : Pipeline) (values : List (String × String)) :
    Option (List (String × CoercedValue)) :=
  if validateValues pipeline.parameters values = [] then
    some (processValues pipeline.parameters values)
  else none

/-! ## Pipeline-form validation (`app/new-pipeline/page.tsx` and
`components/edit-pipeline-modal.tsx` share the same `validateForm` logic) -/

/-- Keys of the `newErrors` record built by `validateForm`. -/
inductive FormErrorKey
  | name
  | description
  | paramKey (index : Nat)
deriving DecidableEq, Repr

/-- `^[a-zA-Z_][a-zA-Z0-9_]*$` start character. -/
def isKeyStart (c : Char) : Bool :=
  (('a' ≤ c && c ≤ 'z') || ('A' ≤ c && c ≤ 'Z')) || c = '_'

/-- `^[a-zA-Z_][a-zA-Z0-9_]*$` continuation character. -/
def isKeyChar (c : Char) : Bool :=
  isKeyStart c || c.isDigit

/-- `keyRegex.test(key)` for `^[a-zA-Z_][a-zA-Z0-9_]*$`. -/
def matchesKeyRegex (s : String) : Bool :=
  match s.data with
  | [] => false
  | c :: cs => isKeyStart c && cs.all isKeyChar

/-- `!s.trim()`: the string is empty or all whitespace. -/
def isBlank (s : String) : Bool :=
  s.data.all jsIsWhitespace

/-- The `parameters.forEach` loop of `validateForm`: one pass with a set of
already-accepted keys (`uniqueKeys`), emitting at most one error per index
`n + i`.  A key is added to the set only when it passes all three checks. -/
def validateParamKeys : List PipelineParameter → List String → Nat →
    List (FormErrorKey × String)
  | [], _, _ => []
  | p :: ps, seen, n =>
      if isBlank p.key then
        (FormErrorKey.paramKey n, "Chave é obrigatória") :: validateParamKeys ps seen (n + 1)
      else if ! matchesKeyRegex p.key then
        (FormErrorKey.paramKey n,
            "Chave deve começar com letra ou _ e conter apenas letras, números e _")
          :: validateParamKeys ps seen (n + 1)
      else if seen.contains p.key then
        (FormErrorKey.paramKey n, "Chave deve ser única") :: validateParamKeys ps seen (n + 1)
      else validateParamKeys ps (p.key :: seen) (n + 1)

/-- The name checks of `validateForm`: mandatory, 3–60 characters. -/
def nameErrors (name : String) : List (FormErrorKey × String) :=
  if isBlank name then [(FormErrorKey.name, "Nome é obrigatório")]
  else if name.length < 3 then
    [(FormErrorKey.name, "Nome deve ter pelo menos 3 caracteres")]
  else if name.length > 60 then
    [(FormErrorKey.name, "Nome deve ter no máximo 60 caracteres")]
  else []

/-- The description check of `validateForm`: at most 255 characters. -/
def descErrors (description : String) : List (FormErrorKey × String) :=
  if description.length > 255 then
    [(FormErrorKey.description, "Descrição deve ter no máximo 255 caracteres")]
  else []

/-- `validateForm` of the pipeline forms: name (mandatory, 3–60 chars),
description (≤ 255 chars), then the parameter keys.  The result models the
`newErrors` record; the form submits only when it is empty. -/
def validateForm (name description : String)
    (parameters : List PipelineParameter) : List (FormErrorKey × String) :=
  nameErrors name ++ (descErrors description ++ validateParamKeys parameters [] 0)

/-- The error recorded for parameter index `i`, if any. -/
def paramError (errs : List (FormErrorKey × String)) (i : Nat) : Option String :=
  (errs.find? (fun e => e.1 = FormErrorKey.paramKey i)).map (fun e => e.2)

/-! ## Pipeline catalog store (`context/pipeline-store.tsx`)

The store holds the pipeline list in React state; an effect re-serializes
the **whole** list to `localStorage` under the key `"pipelines"` on every
change, and the mount effect reloads it, reviving `createdAt` (a revived
`new Date(iso)` keeps the stored millisecond value, so the snapshot is
modelled as a JSON value with the timestamp as a number). -/

/-- Encode a parameter type to its wire string. -/
def encodeParamType : ParameterType → String
  | ParameterType.int => "int"
  | ParameterType.number => "number"
  | ParameterType.float => "float"
  | ParameterType.string => "string"
  | ParameterType.list => "list"
  | ParameterType.dict => "dict"

/-- Decode a parameter-type string. -/
def decodeParamType (s : String) : Option ParameterType :=
  if s = "int" then some ParameterType.int
  else if s = "number" then some ParameterType.number
  else if s = "float" then some ParameterType.float
  else if s = "string" then some ParameterType.string
  else if s = "list" then some ParameterType.list
  else if s = "dict" then some ParameterType.dict
  else none

/-- Serialize one `PipelineParameter`. -/
def encodeParameter (p : PipelineParameter) : Json :=
  Json.obj [("key", Json.str p.key), ("type", Json.str (encodeParamType p.type)),
    ("value", match p.value with
      | some s => Json.str s
      | none => Json.null)]

/-- Look a member up in a JSON object's member list. -/
def objGet (members : List (String × Json)) (k : String) : Option Json :=
  (members.find? (fun m => m.1 = k)).map (fun m => m.2)

/-- Decode every element of a JSON array (the `map` of the load path). -/
def decodeAll (f : Json → Option α) : List Json → Option (List α)
  | [] => some []
  | j :: js => (f j).bind (fun a => (decodeAll f js).map (fun as => a :: as))

/-- Deserialize one `PipelineParameter`. -/
def decodeParameter (j : Json) : Option PipelineParameter :=
  match j with
  | Json.obj ms =>
      match objGet ms "key", objGet ms "type", objGet ms "value" with
      | some (Json.str k), some (Json.str t), some v =>
          (decodeParamType t).bind (fun ty =>
            match v with
            | Json.null => some ⟨k, ty, none⟩
            | Json.str s => some ⟨k, ty, some s⟩
            | _ => none)
      | _, _, _ => none
  | _ => none

/-- Serialize one `Pipeline` (the `createdAt` `Date` keeps its millisecond
timestamp through `toISOString`/`new Date`, recorded here as a number). -/
def encodePipeline (p : Pipeline) : Json :=
  Json.obj [("id", Json.str p.id), ("name", Json.str p.name),
    ("description", Json.str p.description),
    ("createdAt", Json.num (p.createdAt : Rat)),
    ("parameters", Json.arr (p.parameters.map encodeParameter))]

/-- Deserialize one `Pipeline`, reviving `createdAt`. -/
def decodePipeline (j : Json) : Option Pipeline :=
  match j with
  | Json.obj ms =>
      match objGet ms "id", objGet ms "name", objGet ms "description",
          objGet ms "createdAt", objGet ms "parameters" with
      | some (Json.str i), some (Json.str n), some (Json.str d),
          some (Json.num t), some (Json.arr ps) =>
          if t.den = 1 then
            (decodeAll decodeParameter ps).map (fun params => ⟨i, n, d, t.num, params⟩)
          else none
      | _, _, _, _, _ => none
  | _ => none

/-- `JSON.stringify(pipelines)` at the value level. -/
def encodePipelines (l : List Pipeline) : Json :=
  Json.arr (l.map encodePipeline)

/-- `JSON.parse` plus the revival `map` of the mount effect. -/
def decodePipelines (j : Json) : Option (List Pipeline) :=
  match j with
  | Json.arr xs => decodeAll decodePipeline xs
  | _ => none

/-- The provider's state: the in-memory list and the persisted snapshot. -/
structure StoreState where
  pipelines : List Pipeline
  storage : Json

/-- The mount-time load: a snapshot that fails to decode leaves the store
empty (the source logs and continues). -/
def loadStore (snapshot : Json) : List Pipeline :=
  (decodePipelines snapshot).getD []

/-- `addPipeline`: append, then persist the whole set. -/
def addPipeline (st : StoreState) (p : Pipeline) : StoreState :=
  let l := st.pipelines ++ [p]
  ⟨l, encodePipelines l⟩

/-- `updatePipeline`: replace every entry whose id matches, keep the rest,
then persist the whole set. -/
def updatePipeline (st : StoreState) (p : Pipeline) : StoreState :=
  let l := st.pipelines.map (fun q => if q.id = p.id then p else q)
  ⟨l, encodePipelines l⟩

/-- `deletePipeline`: drop every entry with the id, then persist the whole
set. -/
def deletePipeline (st : StoreState) (id : String) : StoreState :=
  let l := st.pipelines.filter (fun q => q.id ≠ id)
  ⟨l, encodePipelines l⟩

/-- `setPipelines`: overwrite the whole set, then persist it. -/
def setPipelines (st : StoreState) (l : List Pipeline) : StoreState :=
  ⟨l, encodePipelines l⟩

/-! ## Edit-pipeline modal (`components/edit-pipeline-modal.tsx`) -/

/-- The modal's form state (`name`, `description`, `parameters`). -/
structure EditFormState where
  name : String
  description : String
  parameters : List PipelineParameter
deriving DecidableEq, Repr

/-- The modal's `useState` initializers: the pipeline's fields, with every
parameter's `value` replaced by `null`. -/
def initEditForm (pipeline : Pipeline) : EditFormState :=
  ⟨pipeline.name, pipeline.description,
    pipeline.parameters.map (fun q => { q with value := none })⟩

/-- `handleSave`: validate; on success build the updated pipeline with
every parameter's `value` set to `null` and hand it to `updatePipeline`
(`none` models a validation failure, which saves nothing). -/
def handleSave (pipeline : Pipeline) (fs : EditFormState) : Option Pipeline :=
  if validateForm fs.name fs.description fs.parameters = [] then
    some { pipeline with
      name := fs.name
      description := fs.description
      parameters := fs.parameters.map (fun q => { q with value := none }) }
  else none

/-! ## C3: integer parameter validation -/

/-- C3: for a declared type of `int`, validation succeeds exactly when the
raw string converts to an integral number, and fails with the
integer-required error otherwise; `"42"` passes and is submitted as the
integer `42` (via `parseInt`), `"4.2"` converts to `21/5` and is
rejected. -/
theorem C3_int_validation (v : String) :
    (validateParameterValue ParameterType.int v = none ↔
        ∃ n : Int, jsToNumber v = JsNum.finite (n : Rat))
      ∧ (validateParameterValue ParameterType.int v = none
          ∨ validateParameterValue ParameterType.int v
              = some "Valor deve ser um número inteiro")
      ∧ validateParameterValue ParameterType.int "42" = none
      ∧ processValues [⟨"x", ParameterType.int, none⟩] [("x", "42")]
          = [("x", CoercedValue.int (some 42))]
      ∧ validateParameterValue ParameterType.int "4.2"
          = some "Valor deve ser um número inteiro"
      ∧ jsToNumber "4.2" = JsNum.finite (mkRat 21 5) := by
  refine ⟨?_, ?_, by decide, by rfl, by decide, by decide⟩
  · unfold validateParameterValue
    constructor
    · intro h
      by_cases hq : jsIsInteger (jsToNumber v) = true
      · cases hj : jsToNumber v with
        | finite q =>
            rw [hj] at hq
            have hden : q.den = 1 := by simpa [jsIsInteger] using hq
            refine ⟨q.num, ?_⟩
            exact congrArg JsNum.finite ((Rat.den_eq_one_iff q).mp hden).symm

        | nan => rw [hj] at hq; simp [jsIsInteger] at hq
        | posInf => rw [hj] at hq; simp [jsIsInteger] at hq
        | negInf => rw [hj] at hq; simp [jsIsInteger] at hq
      · simp [hq] at h
    · rintro ⟨n, hn⟩
      have hq : jsIsInteger (jsToNumber v) = true := by
        rw [hn]; simp [jsIsInteger]
      simp [hq]
  · unfold validateParameterValue
    by_cases hq : jsIsInteger (jsToNumber v) = true
    · exact Or.inl (by simp [hq])
    · exact Or.inr (by simp [hq])

/-! ## C4: list and dict parameter validation -/

/-- C4: for type `list`, validation succeeds exactly when the value parses
as JSON to an array; for `dict`, exactly when it parses to an object (JSON
has no other non-null, non-array `typeof ... = "object"` values); on
success the submitted value is the parsed JSON.  `"[1,2,3]"` coerces to a
3-element array, `"{}"` is rejected for `list`; `'{"a":1}'` coerces to an
object, `"[1,2]"` is rejected for `dict`. -/
theorem C4_list_dict_validation (v : String) :
    (validateParameterValue ParameterType.list v = none ↔
        ∃ elems, jsonParse v = some (Json.arr elems))
      ∧ (validateParameterValue ParameterType.dict v = none ↔
          ∃ members, jsonParse v = some (Json.obj members))
      ∧ jsonParse "[1,2,3]" = some (Json.arr [Json.num 1, Json.num 2, Json.num 3])
      ∧ ([Json.num 1, Json.num 2, Json.num 3] : List Json).length = 3
      ∧ processValues [⟨"x", ParameterType.list, none⟩] [("x", "[1,2,3]")]
          = [("x", CoercedValue.json
              (some (Json.arr [Json.num 1, Json.num 2, Json.num 3])))]
      ∧ validateParameterValue ParameterType.list "\x7b\x7d"
          = some "Valor deve ser um array JSON válido"
      ∧ validateParameterValue ParameterType.dict "\x7b\"a\":1\x7d" = none
      ∧ jsonParse "\x7b\"a\":1\x7d" = some (Json.obj [("a", Json.num 1)])
      ∧ processValues [⟨"x", ParameterType.dict, none⟩] [("x", "\x7b\"a\":1\x7d")]
          = [("x", CoercedValue.json (some (Json.obj [("a", Json.num 1)])))]
      ∧ validateParameterValue ParameterType.dict "[1,2]"
          = some "Valor deve ser um objeto JSON válido" := by
  refine ⟨?_, ?_, by rfl, by rfl, by rfl, by rfl, by rfl, by rfl, by rfl, by rfl⟩
  · unfold validateParameterValue
    cases hj : jsonParse v with
    | none => simp
    | some j => cases j <;> simp
  · unfold validateParameterValue
    cases hj : jsonParse v with
    | none => simp
    | some j => cases j <;> simp

/-! ## C8: mandatory-value validation -/

/-- In a parameter list with no duplicate keys, a parameter whose entry is
absent or empty gets exactly the mandatory-value error. -/
theorem validateValues_mandatory (params : List PipelineParameter)
    (values : List (String × String)) (param : PipelineParameter)
    (hmem : param ∈ params)
    (hnodup : (params.map (fun q => q.key)).Nodup)
    (hempty : lookupValue values param.key = none
        ∨ lookupValue values param.key = some "") :
    lookupValue (validateValues params values) param.key
      = some "Valor é obrigatório" := by
  induction params with
  | nil => cases hmem
  | cons p ps ih =>
      rcases List.mem_cons.mp hmem with rfl | hmem'
      · have hv : (match lookupValue values param.key with
            | none => some (param.key, "Valor é obrigatório")
            | some v =>
                if v = "" then some (param.key, "Valor é obrigatório")
                else (validateParameterValue param.type v).map
                  (fun msg => (param.key, msg)))
            = some (param.key, "Valor é obrigatório") := by
          rcases hempty with h | h <;> rw [h] <;> simp
        unfold validateValues
        rw [List.filterMap_cons, hv]
        simp [lookupValue]
      · have hkey : p.key ≠ param.key := by
          intro hk
          have : param.key ∈ ps.map (fun q => q.key) :=
            List.mem_map.mpr ⟨param, hmem', rfl⟩
          rw [← hk] at this
          exact (List.nodup_cons.mp hnodup).1 this
        have ihr := ih hmem' (List.nodup_cons.mp hnodup).2
        unfold validateValues at ihr ⊢
        rw [List.filterMap_cons]
        cases hv : (match lookupValue values p.key with
            | none => some (p.key, "Valor é obrigatório")
            | some v =>
              if v = "" then some (p.key, "Valor é obrigatório")
              else (validateParameterValue p.type v).map (fun msg => (p.key, msg))) with
        | none => simpa using ihr
        | some entry =>
            have hfst : entry.1 = p.key := by
              cases hval : lookupValue values p.key with
              | none =>
                  rw [hval] at hv
                  dsimp only at hv
                  injection hv with hv2
                  rw [← hv2]
              | some v =>
                  rw [hval] at hv
                  dsimp only at hv
                  by_cases hvv : v = ""
                  · rw [if_pos hvv] at hv
                    injection hv with hv2
                    rw [← hv2]
                  · rw [if_neg hvv] at hv
                    cases hmsg : validateParameterValue p.type v with
                    | none => rw [hmsg] at hv; simp at hv
                    | some m =>
                        rw [hmsg] at hv
                        injection hv with hv2
                        rw [← hv2]
            unfold lookupValue at ihr ⊢
            rw [List.find?_cons_of_neg]
            · exact ihr
            · simp only [hfst]
              simp [hkey]

/-- C8: an absent or empty entry for any parameter is rejected with the
mandatory-value message — the type-specific check never runs, so the
message is the mandatory one even for types whose check would pass — and
submission is blocked; in general `handleExecute` submits exactly when
validation produced no error. -/
theorem C8_mandatory_values (pipeline : Pipeline)
    (values : List (String × String)) (param : PipelineParameter)
    (hmem : param ∈ pipeline.parameters)
    (hnodup : (pipeline.parameters.map (fun q => q.key)).Nodup)
    (hempty : lookupValue values param.key = none
        ∨ lookupValue values param.key = some "") :
    lookupValue (validateValues pipeline.parameters values) param.key
        = some "Valor é obrigatório"
      ∧ handleExecute pipeline values = none
      ∧ ∀ values2, (handleExecute pipeline values2
          = some (processValues pipeline.parameters values2)
        ↔ validateValues pipeline.parameters values2 = []) := by
  have h1 := validateValues_mandatory pipeline.parameters values param hmem hnodup hempty
  refine ⟨h1, ?_, ?_⟩
  · unfold handleExecute
    have : validateValues pipeline.parameters values ≠ [] := by
      intro he
      rw [he] at h1
      simp [lookupValue] at h1
    simp [this]
  · intro values2
    unfold handleExecute
    by_cases he : validateValues pipeline.parameters values2 = [] <;> simp [he]

/-- Witness for `C8_mandatory_values`: a one-parameter pipeline with an
empty entered value records the mandatory error and blocks submission. -/
theorem C8_mandatory_values_witness :
    lookupValue (validateValues [⟨"rows", ParameterType.int, none⟩] [("rows", "")])
        "rows" = some "Valor é obrigatório"
      ∧ handleExecute ⟨"id1", "Pipe", "", 0, [⟨"rows", ParameterType.int, none⟩]⟩
          [("rows", "")] = none := by
  have h := C8_mandatory_values
    ⟨"id1", "Pipe", "", 0, [⟨"rows", ParameterType.int, none⟩]⟩
    [("rows", "")] ⟨"rows", ParameterType.int, none⟩
    (by decide) (by decide) (Or.inr (by decide))
  exact ⟨h.1, h.2.1⟩

/-! ## C10: editing discards stored parameter values -/

/-- C10: a successful save from the edit modal writes, via
`updatePipeline`, a pipeline all of whose parameters have `value = null`;
every catalog entry it replaces therefore carries only null parameter
values. -/
theorem C10_edit_nulls_values (pipeline : Pipeline) (fs : EditFormState)
    (p : Pipeline) (h : handleSave pipeline fs = some p) :
    (∀ q ∈ p.parameters, q.value = none)
      ∧ ∀ (st : StoreState) (q : Pipeline),
          q ∈ (updatePipeline st p).pipelines → q.id = p.id →
            ∀ r ∈ q.parameters, r.value = none := by
  have hp : ∀ q ∈ p.parameters, q.value = none := by
    unfold handleSave at h
    by_cases hv : validateForm fs.name fs.description fs.parameters = []
    · rw [if_pos hv] at h
      cases h
      intro q hq
      rcases List.mem_map.mp hq with ⟨r, _, rfl⟩
      rfl
    · rw [if_neg hv] at h; cases h
  refine ⟨hp, ?_⟩
  intro st q hq hid
  unfold updatePipeline at hq
  rcases List.mem_map.mp hq with ⟨q₀, _, hq₀⟩
  by_cases h0 : q₀.id = p.id
  · rw [if_pos h0] at hq₀
    rw [← hq₀]
    exact hp
  · rw [if_neg h0] at hq₀
    rw [← hq₀] at hid
    exact absurd hid h0

/-- Witness for `C10_edit_nulls_values`: editing a pipeline whose single
parameter carried the stored value `"5"` saves it with `value = null`. -/
theorem C10_edit_nulls_values_witness :
    PipelineParameter.value ⟨"rows", ParameterType.int, none⟩ = none :=
  (C10_edit_nulls_values
    ⟨"id1", "Pipeline A", "", 0, [⟨"rows", ParameterType.int, some "5"⟩]⟩
    (initEditForm ⟨"id1", "Pipeline A", "", 0,
      [⟨"rows", ParameterType.int, some "5"⟩]⟩)
    ⟨"id1", "Pipeline A", "", 0, [⟨"rows", ParameterType.int, none⟩]⟩
    (by decide)).1
    ⟨"rows", ParameterType.int, none⟩ (by decide)

/-! ## C6: catalog round trip -/

theorem decodeParamType_encodeParamType (t : ParameterType) :
    decodeParamType (encodeParamType t) = some t := by
  cases t <;> rfl

theorem decodeParameter_encodeParameter (p : PipelineParameter) :
    decodeParameter (encodeParameter p) = some p := by
  cases p with
  | mk key type value =>
      cases value <;>
        simp [encodeParameter, decodeParameter, objGet, List.find?,
          decodeParamType_encodeParamType]

theorem decodePipeline_encodePipeline (p : Pipeline) :
    decodePipeline (encodePipeline p) = some p := by
  cases p with
  | mk id name description createdAt parameters =>
      have hm : decodeAll decodeParameter (parameters.map encodeParameter)
          = some parameters := by
        induction parameters with
        | nil => rfl
        | cons q qs ih =>
            simp [decodeAll, decodeParameter_encodeParameter, ih]
      simp [encodePipeline, decodePipeline, objGet, List.find?, hm,
        Rat.den_intCast, Rat.num_intCast]

theorem decodePipelines_encodePipelines (l : List Pipeline) :
    decodePipelines (encodePipelines l) = some l := by
  show decodeAll decodePipeline (l.map encodePipeline) = some l
  induction l with
  | nil => rfl
  | cons p ps ih =>
      rw [List.map_cons]
      show (decodePipeline (encodePipeline p)).bind
          (fun a => (decodeAll decodePipeline (ps.map encodePipeline)).map
            (fun as => a :: as)) = some (p :: ps)
      rw [decodePipeline_encodePipeline]
      simp [ih]

/-- C6: after `add(p)`, reloading the catalog from the persisted snapshot
restores exactly the new list, which contains `p` with all fields (id,
name, description, creation timestamp, parameter list) intact. -/
theorem C6_add_roundtrip (st : StoreState) (p : Pipeline) :
    loadStore (addPipeline st p).storage = (addPipeline st p).pipelines
      ∧ ∃ q ∈ loadStore (addPipeline st p).storage,
          q.id = p.id ∧ q.name = p.name ∧ q.description = p.description
            ∧ q.createdAt = p.createdAt ∧ q.parameters = p.parameters := by
  have h := decodePipelines_encodePipelines (st.pipelines ++ [p])
  constructor
  · simp [loadStore, addPipeline, h]
  · refine ⟨p, ?_, rfl, rfl, rfl, rfl, rfl⟩
    simp [loadStore, addPipeline, h]

/-! ## C9: update and remove semantics -/

/-- C9: `update(p)` rewrites exactly the entries whose id matches `p.id`
(positionally, preserving length and order), is a no-op when no entry
matches; `remove(id)` deletes exactly the entries with that id, keeping
the rest as a subsequence; and both mutations persist the full
re-serialization of the entire resulting set. -/
theorem C9_update_remove (st : StoreState) (p : Pipeline) (pid : String)
    (i : Nat) :
    ((updatePipeline st p).pipelines[i]? =
        (st.pipelines[i]?).map (fun q => if q.id = p.id then p else q))
      ∧ ((∀ q ∈ st.pipelines, q.id ≠ p.id) →
          (updatePipeline st p).pipelines = st.pipelines)
      ∧ (updatePipeline st p).pipelines.length = st.pipelines.length
      ∧ List.Sublist (deletePipeline st pid).pipelines st.pipelines
      ∧ (∀ q ∈ (deletePipeline st pid).pipelines, q.id ≠ pid)
      ∧ (∀ q ∈ st.pipelines, q.id ≠ pid → q ∈ (deletePipeline st pid).pipelines)
      ∧ (updatePipeline st p).storage
          = encodePipelines (updatePipeline st p).pipelines
      ∧ (deletePipeline st pid).storage
          = encodePipelines (deletePipeline st pid).pipelines := by
  refine ⟨?_, ?_, ?_, ?_, ?_, ?_, rfl, rfl⟩
  · simp [updatePipeline, List.getElem?_map]
  · intro h
    unfold updatePipeline
    simp only
    conv_rhs => rw [← List.map_id st.pipelines]
    exact List.map_congr_left (fun q hq => by simp [h q hq])
  · simp [updatePipeline]
  · exact List.filter_sublist st.pipelines
  · intro q hq
    have h2 := List.of_mem_filter hq
    simpa using h2
  · intro q hq hne
    exact List.mem_filter.mpr ⟨hq, by simpa using hne⟩

/-- Witness for `C9_update_remove`: updating a catalog that does not hold
the pipeline's id leaves the list unchanged. -/
theorem C9_update_remove_witness :
    (updatePipeline ⟨[⟨"a", "Pipe A", "", 0, []⟩], encodePipelines [⟨"a", "Pipe A", "", 0, []⟩]⟩
        ⟨"b", "Pipe B", "", 0, []⟩).pipelines = [⟨"a", "Pipe A", "", 0, []⟩] := by
  have h := C9_update_remove
    ⟨[⟨"a", "Pipe A", "", 0, []⟩], encodePipelines [⟨"a", "Pipe A", "", 0, []⟩]⟩
    ⟨"b", "Pipe B", "", 0, []⟩ "c" 0
  exact h.2.1 (by decide)

/-! ## C5: parameter key validation -/

/-- The `uniqueKeys` set after the loop of `validateForm` has scanned `ps`,
starting from `seen`: accepted keys are pushed, rejected ones are not. -/
def seenAfter (seen : List String) : List PipelineParameter → List String
  | [] => seen
  | p :: ps =>
      if isBlank p.key then seenAfter seen ps
      else if ! matchesKeyRegex p.key then seenAfter seen ps
      else if seen.contains p.key then seenAfter seen ps
      else seenAfter (p.key :: seen) ps

/-- The error `validateForm` records for a single parameter given the
already-accepted keys. -/
def keyError (p : PipelineParameter) (seen : List String) : Option String :=
  if isBlank p.key then some "Chave é obrigatória"
  else if ! matchesKeyRegex p.key then
    some "Chave deve começar com letra ou _ e conter apenas letras, números e _"
  else if seen.contains p.key then some "Chave deve ser única"
  else none

theorem paramError_cons_of_ne (e : FormErrorKey × String)
    (errs : List (FormErrorKey × String)) (k : Nat)
    (h : e.1 ≠ FormErrorKey.paramKey k) :
    paramError (e :: errs) k = paramError errs k := by
  unfold paramError
  rw [List.find?_cons_of_neg]
  simpa using h

theorem paramError_cons_self (msg : String)
    (errs : List (FormErrorKey × String)) (k : Nat) :
    paramError ((FormErrorKey.paramKey k, msg) :: errs) k = some msg := by
  unfold paramError
  rw [List.find?_cons_of_pos]
  · rfl
  · simp

theorem find?_append_of_none (p : α → Bool) (l₁ l₂ : List α)
    (h : l₁.find? p = none) : (l₁ ++ l₂).find? p = l₂.find? p := by
  induction l₁ with
  | nil => rfl
  | cons a l ih =>
      have ha : ¬ p a := by
        intro hpa
        rw [List.find?_cons_of_pos _ hpa] at h
        cases h
      rw [List.find?_cons_of_neg _ ha] at h
      rw [List.cons_append, List.find?_cons_of_neg _ ha]
      exact ih h

/-- Entries produced by the loop have indices at least `n`. -/
theorem validateParamKeys_lookup_lt (ps : List PipelineParameter)
    (seen : List String) (n k : Nat) (hk : k < n) :
    paramError (validateParamKeys ps seen n) k = none := by
  induction ps generalizing seen n with
  | nil => rfl
  | cons p ps ih =>
      unfold validateParamKeys
      have hne : (FormErrorKey.paramKey n : FormErrorKey)
          ≠ FormErrorKey.paramKey k := by
        intro h
        injection h with h2
        omega
      by_cases h1 : isBlank p.key
      · rw [if_pos h1, paramError_cons_of_ne _ _ _ hne]
        exact ih seen (n + 1) (by omega)
      · rw [if_neg h1]
        by_cases h2 : matchesKeyRegex p.key
        · rw [if_neg (by simp [h2])]
          by_cases h3 : seen.contains p.key
          · rw [if_pos h3, paramError_cons_of_ne _ _ _ hne]
            exact ih seen (n + 1) (by omega)
          · rw [if_neg h3]
            exact ih (p.key :: seen) (n + 1) (by omega)
        · rw [if_pos (by simp [h2]), paramError_cons_of_ne _ _ _ hne]
          exact ih seen (n + 1) (by omega)

/-- The loop records for position `n + pre.length` (the parameter after the
prefix `pre`) exactly `keyError` relative to the keys accepted over `pre`. -/
theorem seenAfter_cons (seen : List String) (q : PipelineParameter)
    (ps : List PipelineParameter) :
    seenAfter seen (q :: ps)
      = if isBlank q.key then seenAfter seen ps
        else if ! matchesKeyRegex q.key then seenAfter seen ps
        else if seen.contains q.key then seenAfter seen ps
        else seenAfter (q.key :: seen) ps := rfl

theorem validateParamKeys_lookup (pre : List PipelineParameter)
    (p : PipelineParameter) (post : List PipelineParameter)
    (seen : List String) (n : Nat) :
    paramError (validateParamKeys (pre ++ p :: post) seen n) (n + pre.length)
      = keyError p (seenAfter seen pre) := by
  induction pre generalizing seen n with
  | nil =>
      simp only [List.nil_append, List.length_nil, Nat.add_zero, seenAfter]
      unfold validateParamKeys
      by_cases h1 : isBlank p.key
      · rw [if_pos h1, paramError_cons_self]
        simp [keyError, h1]
      · rw [if_neg h1]
        by_cases h2 : matchesKeyRegex p.key
        · have h2' : ¬ ((! matchesKeyRegex p.key) = true) := by simp [h2]
          rw [if_neg h2']
          by_cases h3 : seen.contains p.key
          · rw [if_pos h3, paramError_cons_self]
            have hmem : p.key ∈ seen := by simpa using h3
            simp [keyError, h1, h2, hmem]
          · rw [if_neg h3,
              validateParamKeys_lookup_lt post (p.key :: seen) (n + 1) n (by omega)]
            have hmem : p.key ∉ seen := by simpa using h3
            simp [keyError, h1, h2, hmem]
        · have h2' : (! matchesKeyRegex p.key) = true := by simp [h2]
          rw [if_pos h2', paramError_cons_self]
          simp [keyError, h1, h2]
  | cons q pre ih =>
      rw [List.cons_append]
      unfold validateParamKeys
      have hne : (FormErrorKey.paramKey n : FormErrorKey)
          ≠ FormErrorKey.paramKey (n + (q :: pre).length) := by
        intro h
        injection h with h2
        simp [List.length_cons] at h2
      have hidx : n + (q :: pre).length = (n + 1) + pre.length := by
        simp [List.length_cons]
        omega
      by_cases h1 : isBlank q.key
      · rw [if_pos h1, paramError_cons_of_ne _ _ _ hne, hidx, ih seen (n + 1),
          seenAfter_cons, if_pos h1]
      · rw [if_neg h1]
        by_cases h2 : matchesKeyRegex q.key
        · have h2' : ¬ ((! matchesKeyRegex q.key) = true) := by simp [h2]
          rw [if_neg h2']
          by_cases h3 : seen.contains q.key
          · rw [if_pos h3, paramError_cons_of_ne _ _ _ hne, hidx, ih seen (n + 1),
              seenAfter_cons, if_neg h1, if_neg h2', if_pos h3]
          · rw [if_neg h3, hidx, ih (q.key :: seen) (n + 1),
              seenAfter_cons, if_neg h1, if_neg h2', if_neg h3]
        · have h2' : (! matchesKeyRegex q.key) = true := by simp [h2]
          rw [if_pos h2', paramError_cons_of_ne _ _ _ hne, hidx, ih seen (n + 1),
            seenAfter_cons, if_neg h1, if_pos h2']

/-- For a non-blank key matching the regex, membership in the accepted set
is exactly: already seen, or occurring in the scanned prefix (the first
occurrence of a valid key is always accepted, because identical strings
pass or fail the blank and regex checks identically). -/
theorem seenAfter_contains (pre : List PipelineParameter) (seen : List String)
    (k : String) (hb : ¬ isBlank k = true) (hr : matchesKeyRegex k = true) :
    ((seenAfter seen pre).contains k = true ↔
      k ∈ seen ∨ ∃ q ∈ pre, q.key = k) := by
  induction pre generalizing seen with
  | nil =>
      simp [seenAfter]
  | cons q pre ih =>
      rw [seenAfter_cons]
      by_cases h1 : isBlank q.key
      · rw [if_pos h1, ih seen]
        constructor
        · rintro (h | ⟨r, hr2, hk⟩)
          · exact Or.inl h
          · exact Or.inr ⟨r, List.mem_cons_of_mem _ hr2, hk⟩
        · rintro (h | ⟨r, hr2, hk⟩)
          · exact Or.inl h
          · rcases List.mem_cons.mp hr2 with rfl | hr3
            · rw [hk] at h1
              exact absurd h1 hb
            · exact Or.inr ⟨r, hr3, hk⟩
      · rw [if_neg h1]
        by_cases h2 : matchesKeyRegex q.key
        · have h2' : ¬ ((! matchesKeyRegex q.key) = true) := by simp [h2]
          rw [if_neg h2']
          by_cases h3 : seen.contains q.key
          · rw [if_pos h3, ih seen]
            have hqmem : q.key ∈ seen := by simpa using h3
            constructor
            · rintro (h | ⟨r, hr2, hk⟩)
              · exact Or.inl h
              · exact Or.inr ⟨r, List.mem_cons_of_mem _ hr2, hk⟩
            · rintro (h | ⟨r, hr2, hk⟩)
              · exact Or.inl h
              · rcases List.mem_cons.mp hr2 with rfl | hr3
                · exact Or.inl (hk ▸ hqmem)
                · exact Or.inr ⟨r, hr3, hk⟩
          · rw [if_neg h3, ih (q.key :: seen)]
            constructor
            · rintro (h | ⟨r, hr2, hk⟩)
              · rcases List.mem_cons.mp h with rfl | h4
                · exact Or.inr ⟨q, List.mem_cons_self q pre, rfl⟩
                · exact Or.inl h4
              · exact Or.inr ⟨r, List.mem_cons_of_mem _ hr2, hk⟩
            · rintro (h | ⟨r, hr2, hk⟩)
              · exact Or.inl (List.mem_cons_of_mem _ h)
              · rcases List.mem_cons.mp hr2 with rfl | hr3
                · exact Or.inl (by rw [hk]; exact List.mem_cons_self _ _)
                · exact Or.inr ⟨r, hr3, hk⟩
        · have h2' : (! matchesKeyRegex q.key) = true := by simp [h2]
          rw [if_pos h2', ih seen]
          constructor
          · rintro (h | ⟨r, hr2, hk⟩)
            · exact Or.inl h
            · exact Or.inr ⟨r, List.mem_cons_of_mem _ hr2, hk⟩
          · rintro (h | ⟨r, hr2, hk⟩)
            · exact Or.inl h
            · rcases List.mem_cons.mp hr2 with rfl | hr3
              · rw [hk] at h2
                exact absurd hr h2
              · exact Or.inr ⟨r, hr3, hk⟩

/-- Every name-check entry is recorded under the `name` key. -/
theorem nameErrors_key (name : String) :
    ∀ x ∈ nameErrors name, x.1 = FormErrorKey.name := by
  unfold nameErrors
  split
  · intro x hx
    simp at hx
    rw [hx]
  · split
    · intro x hx
      simp at hx
      rw [hx]
    · split
      · intro x hx
        simp at hx
        rw [hx]
      · intro x hx
        simp at hx

/-- `paramError` sees through the name and description error entries. -/
theorem paramError_validateForm (name description : String)
    (params : List PipelineParameter) (i : Nat) :
    paramError (validateForm name description params) i
      = paramError (validateParamKeys params [] 0) i := by
  unfold validateForm paramError
  rw [find?_append_of_none, find?_append_of_none]
  · unfold descErrors
    split <;> simp
  · rw [List.find?_eq_none]
    intro x hx
    simp [nameErrors_key name x hx]

theorem split_at_index (l : List PipelineParameter) (m : Nat) (hm : m < l.length) :
    l = l.take m ++ l.get ⟨m, hm⟩ :: l.drop (m + 1) := by
  conv_lhs => rw [← List.take_append_drop m l]
  congr 1
  rw [List.get_eq_getElem]
  exact List.drop_eq_getElem_cons hm

theorem mem_take_key (l : List PipelineParameter) (i : Nat) (hi : i < l.length)
    (k : String) :
    (∃ q ∈ l.take i, q.key = k) ↔
      ∃ j, ∃ hj : j < i, (l.get ⟨j, Nat.lt_trans hj hi⟩).key = k := by
  constructor
  · rintro ⟨q, hq, hk⟩
    rcases List.mem_iff_getElem.mp hq with ⟨m, hm, hqm⟩
    have hmi : m < i := by
      rw [List.length_take] at hm
      omega
    have hml : m < l.length := by omega
    refine ⟨m, hmi, ?_⟩
    rw [List.get_eq_getElem]
    rw [List.getElem_take] at hqm
    rw [hqm]
    exact hk
  · rintro ⟨j, hj, hk⟩
    have hjt : j < (l.take i).length := by
      rw [List.length_take]
      omega
    refine ⟨(l.take i).get ⟨j, hjt⟩, List.get_mem _ _ hjt, ?_⟩
    rw [List.get_eq_getElem, List.getElem_take]
    rw [List.get_eq_getElem] at hk
    exact hk

/-- C5: a parameter key is accepted (no validation error recorded for its
row) exactly when it is non-blank, matches `^[a-zA-Z_][a-zA-Z0-9_]*$`, and
does not repeat the key of any earlier row; and when a valid key occurs at
an earlier row `i` and again at a later row `j`, the uniqueness error is
recorded at `j` (the second occurrence), never at the first. -/
theorem C5_param_key_validation (name description : String)
    (params : List PipelineParameter) (i : Nat) (hi : i < params.length) :
    (paramError (validateForm name description params) i = none ↔
        (¬ isBlank (params.get ⟨i, hi⟩).key = true
          ∧ matchesKeyRegex (params.get ⟨i, hi⟩).key = true
          ∧ ∀ j (hj : j < i),
              (params.get ⟨j, Nat.lt_trans hj hi⟩).key
                ≠ (params.get ⟨i, hi⟩).key))
      ∧ (∀ j (hij : i < j) (hj : j < params.length),
          (params.get ⟨j, hj⟩).key = (params.get ⟨i, hi⟩).key →
          ¬ isBlank (params.get ⟨i, hi⟩).key = true →
          matchesKeyRegex (params.get ⟨i, hi⟩).key = true →
          paramError (validateForm name description params) j
            = some "Chave deve ser única") := by
  have hlook : ∀ (m : Nat) (hm : m < params.length),
      paramError (validateForm name description params) m
        = keyError (params.get ⟨m, hm⟩) (seenAfter [] (params.take m)) := by
    intro m hm
    rw [paramError_validateForm]
    conv_lhs => rw [split_at_index params m hm]
    have h := validateParamKeys_lookup (params.take m) (params.get ⟨m, hm⟩)
      (params.drop (m + 1)) [] 0
    have hlen : (params.take m).length = m := by
      rw [List.length_take]
      omega
    rw [hlen] at h
    simpa using h
  constructor
  · rw [hlook i hi]
    unfold keyError
    by_cases h1 : isBlank (params.get ⟨i, hi⟩).key
    · rw [if_pos h1]
      constructor
      · intro h
        cases h
      · rintro ⟨hb, _, _⟩
        exact absurd h1 hb
    · rw [if_neg h1]
      by_cases h2 : matchesKeyRegex (params.get ⟨i, hi⟩).key
      · have h2' : ¬ ((! matchesKeyRegex (params.get ⟨i, hi⟩).key) = true) := by
          simpa using h2
        rw [if_neg h2']
        by_cases h3 : (seenAfter [] (params.take i)).contains (params.get ⟨i, hi⟩).key
        · rw [if_pos h3]
          constructor
          · intro h
            cases h
          · rintro ⟨_, _, hnojdup⟩
            rcases (seenAfter_contains (params.take i) []
                (params.get ⟨i, hi⟩).key h1 h2).mp h3 with h4 | h4
            · cases h4
            · rcases (mem_take_key params i hi _).mp h4 with ⟨j, hj, hk⟩
              exact absurd hk (hnojdup j hj)
        · rw [if_neg h3]
          refine ⟨fun _ => ⟨h1, h2, ?_⟩, fun _ => rfl⟩
          intro j hj hk
          apply h3
          exact (seenAfter_contains (params.take i) [] _ h1 h2).mpr
            (Or.inr ((mem_take_key params i hi _).mpr ⟨j, hj, hk⟩))
      · have h2' : (! matchesKeyRegex (params.get ⟨i, hi⟩).key) = true := by
          simpa using h2
        rw [if_pos h2']
        constructor
        · intro h
          cases h
        · rintro ⟨_, hr, _⟩
          exact absurd hr h2
  · intro j hij hj hk hb hr
    rw [hlook j hj]
    unfold keyError
    have hbj : ¬ isBlank (params.get ⟨j, hj⟩).key = true := by
      rw [hk]
      exact hb
    have hrj : matchesKeyRegex (params.get ⟨j, hj⟩).key = true := by
      rw [hk]
      exact hr
    rw [if_neg hbj, if_neg (show ¬ ((! matchesKeyRegex (params.get ⟨j, hj⟩).key) = true) from by simpa using hrj)]
    have hcontains : (seenAfter [] (params.take j)).contains
        (params.get ⟨j, hj⟩).key = true := by
      refine (seenAfter_contains (params.take j) [] _ hbj hrj).mpr (Or.inr ?_)
      rw [hk]
      exact (mem_take_key params j hj _).mpr ⟨i, hij, rfl⟩
    rw [if_pos hcontains]

/-- Witness for `C5_param_key_validation`: with two rows both keyed
`"rows"`, the first row is error-free and the second carries the
uniqueness error. -/
theorem C5_param_key_validation_witness :
    paramError (validateForm "Pipe" ""
        [⟨"rows", ParameterType.int, none⟩, ⟨"rows", ParameterType.int, none⟩]) 0
      = none
    ∧ paramError (validateForm "Pipe" ""
        [⟨"rows", ParameterType.int, none⟩, ⟨"rows", ParameterType.int, none⟩]) 1
      = some "Chave deve ser única" := by
  have h := C5_param_key_validation "Pipe" ""
    [⟨"rows", ParameterType.int, none⟩, ⟨"rows", ParameterType.int, none⟩]
    0 (by decide)
  constructor
  · exact h.1.mpr ⟨by decide, by decide, by omega⟩
  · exact h.2 1 (by decide) (by decide) (by decide) (by decide) (by decide)

end PipelineAutomation
